import Mathlib

/-
Verification development for generate-rss.py: a one-shot batch tool that
scans a downloads directory (one subdirectory per playlist, holding media
files, per-item `*.info.json` metadata sidecars and optional artwork) and
writes one RSS document `feed-<slug>.xml` per playlist.

The definitions below are a shallow embedding of the script.  Pure Python
functions become Lean functions; filesystem state is passed explicitly as
data (a `PlaylistDir` records which files exist, the parsed content of each
sidecar, and per-file mtimes / sizes / probe results); `json.load` failure
and the resulting process abort are modelled with `Except`.  Machine floats
from ffprobe are modelled as rationals; Python `round` (banker's rounding)
is modelled exactly.  Comments next to each definition name the source
lines it embeds.
-/

/-! ## Generic character-list helpers -/

/-- Boolean test: the first list is a leading segment of the second. -/
def lPre : List Char → List Char → Bool
  | [], _ => true
  | _ :: _, [] => false
  | a :: as, b :: bs => a == b && lPre as bs

/-- Boolean test: `pat` occurs as a contiguous run inside `s`. -/
def containsL (pat : List Char) : List Char → Bool
  | [] => lPre pat []
  | c :: rest => lPre pat (c :: rest) || containsL pat rest

/-- Boolean test on strings: `pat` occurs inside `s`. -/
def containsS (s pat : String) : Bool := containsL pat.data s.data

/-- Boolean test: string `s` ends with `suf` (models Python suffix checks
and `glob` suffix patterns). -/
def endsWithL (suf s : String) : Bool := lPre suf.data.reverse s.data.reverse

/-- Whether a file name starts with a dot; `glob` with a `*` pattern never
matches such names. -/
def startsWithDot (n : String) : Bool :=
  match n.data with
  | [] => false
  | c :: _ => c == '.'

/-- Model of Python `str.split(sep)` for a one-character separator. -/
def splitOnChar (sep : Char) : List Char → List (List Char)
  | [] => [[]]
  | c :: rest =>
    if c == sep then [] :: splitOnChar sep rest
    else
      match splitOnChar sep rest with
      | g :: gs => (c :: g) :: gs
      | [] => [[c]]

/-- Model of Python `sep.join(groups)` for a one-character separator. -/
def joinChar (sep : Char) : List (List Char) → List Char
  | [] => []
  | [g] => g
  | g :: gs => g ++ sep :: joinChar sep gs

/-- Model of Python slicing `s[:-n]` at the character-list level. -/
def dropLastN (n : Nat) (l : List Char) : List Char := l.take (l.length - n)

/-! ## Numeric formatting helpers -/

/-- Python `f"{n:02d}"` for a natural number. -/
def pad2 (n : Nat) : String := if n < 10 then "0" ++ toString n else toString n

/-- Python `f"{n:04d}"` for a natural number. -/
def pad4 (n : Nat) : String :=
  if n < 10 then "000" ++ toString n
  else if n < 100 then "00" ++ toString n
  else if n < 1000 then "0" ++ toString n
  else toString n

/-- Python `f"{z:02d}"` for an integer (zero-pads only one-digit
non-negative values; negative values keep their sign). -/
def pad2Int (z : Int) : String :=
  if 0 ≤ z ∧ z < 10 then "0" ++ toString z else toString z

/-! ## html.escape (used for titles, descriptions and the channel title) -/

/-- Model of Python `html.escape(s)` with `quote=True` (the default): the
five-character translation applied by `generate-rss.py` lines 70-71 and
115. -/
def escChar (c : Char) : List Char :=
  if c == '&' then "&amp;".data
  else if c == '<' then "&lt;".data
  else if c == '>' then "&gt;".data
  else if c == '"' then "&quot;".data
  else if c == '\'' then "&#x27;".data
  else [c]

/-- Model of Python `html.escape`. -/
def htmlEscape (s : String) : String := String.mk (s.data.foldr (fun c acc => escChar c ++ acc) [])

/-! ## urllib.parse.quote (lines 92, 99, 122) -/

/-- Uppercase hexadecimal digit. -/
def hexDigit (n : Nat) : Char :=
  if n = 0 then '0' else if n = 1 then '1' else if n = 2 then '2'
  else if n = 3 then '3' else if n = 4 then '4' else if n = 5 then '5'
  else if n = 6 then '6' else if n = 7 then '7' else if n = 8 then '8'
  else if n = 9 then '9' else if n = 10 then 'A' else if n = 11 then 'B'
  else if n = 12 then 'C' else if n = 13 then 'D' else if n = 14 then 'E'
  else 'F'

/-- UTF-8 encoding of one character, as byte values (Python `quote`
percent-encodes the UTF-8 bytes of non-safe characters). -/
def utf8Bytes (c : Char) : List Nat :=
  let n := c.toNat
  if n < 0x80 then [n]
  else if n < 0x800 then [0xC0 + n / 0x40, 0x80 + n % 0x40]
  else if n < 0x10000 then
    [0xE0 + n / 0x1000, 0x80 + n / 0x40 % 0x40, 0x80 + n % 0x40]
  else
    [0xF0 + n / 0x40000, 0x80 + n / 0x1000 % 0x40, 0x80 + n / 0x40 % 0x40, 0x80 + n % 0x40]

/-- Characters `urllib.parse.quote` leaves untouched: the always-safe set
`ALPHA / DIGIT / "_" / "." / "-" / "~"` plus the default `safe='/'`. -/
def quoteSafe (c : Char) : Bool :=
  c.isAlpha || c.isDigit || c == '_' || c == '.' || c == '-' || c == '~' || c == '/'

/-- Percent-encoding of one byte, e.g. `%20`. -/
def pctByte (b : Nat) : List Char := ['%', hexDigit (b / 16), hexDigit (b % 16)]

/-- `urllib.parse.quote` on one character. -/
def quoteChar (c : Char) : List Char :=
  if quoteSafe c then [c] else (utf8Bytes c).foldr (fun b acc => pctByte b ++ acc) []

/-- Model of Python `urllib.parse.quote(s)` (default `safe='/'`), at the
character-list level. -/
def pyQuoteL (cs : List Char) : List Char := cs.foldr (fun c acc => quoteChar c ++ acc) []

/-- Model of Python `urllib.parse.quote(s)` (default `safe='/'`). -/
def pyQuote (s : String) : String := String.mk (pyQuoteL s.data)

/-- Path segments of a string, split at `'/'` (used only to state the
segment-wise encoding property of the spec). -/
def splitSlash (s : String) : List String := (splitOnChar '/' s.data).map String.mk

/-- Rejoin path segments with `'/'` (used only to state the segment-wise
encoding property of the spec). -/
def joinSlash (l : List String) : String := String.mk (joinChar '/' (l.map String.data))

/-! ## slugify (lines 40-45) -/

/-- ASCII alphanumeric test; agrees with Python `str.isalnum` on ASCII
input (the scope of this embedding). -/
def isAlnumAscii (c : Char) : Bool := c.isAlpha || c.isDigit

/-- The per-character replacement of `slugify` line 43:
`c if c.isalnum() else "-"`. -/
def repChar (c : Char) : Char := if isAlnumAscii c then c else '-'

/-- Model of `slugify` (lines 40-45): lowercase, replace non-alphanumerics
by `-`, collapse runs of `-` and strip ends (via split/filter/join), then
truncate to 50 characters.  Python string methods are Unicode-wide; this
embedding is faithful on ASCII input. -/
def slugify (text : String) : String :=
  let lowered := text.data.map Char.toLower
  let replaced := lowered.map repChar
  let joined := joinChar '-' ((splitOnChar '-' replaced).filter (fun g => !g.isEmpty))
  String.mk (joined.take 50)

/-- Predicate for the spec's output alphabet `[a-z0-9-]`. -/
def isSlugChar (c : Char) : Bool := ('a' ≤ c && c ≤ 'z') || c.isDigit || c == '-'

/-! ## sec_to_itunes (lines 28-38) and Python round -/

/-- Model of Python `round(x)` on a rational: round half to even. -/
def pyRound (q : ℚ) : ℤ :=
  let f : ℤ := Int.floor q
  let r : ℚ := q - (f : ℚ)
  if r < 1/2 then f
  else if 1/2 < r then f + 1
  else if f % 2 = 0 then f else f + 1

/-- Model of `sec_to_itunes` (lines 28-38).  `none` models the Python
`None` returned by `ffprobe_duration` on any failure.  `//` and `%` of
Python are `Int.fdiv` / `Int.fmod`. -/
def sec_to_itunes : Option ℚ → String
  | none => ""
  | some d =>
    let n : ℤ := pyRound d
    let h : ℤ := n.fdiv 3600
    let m : ℤ := (n.fmod 3600).fdiv 60
    let s : ℤ := n.fmod 60
    if h ≠ 0 then toString h ++ ":" ++ pad2Int m ++ ":" ++ pad2Int s
    else toString m ++ ":" ++ pad2Int s

/-! ## Dates: datetime.strptime("%Y%m%d"), utcfromtimestamp,
email.utils.format_datetime -/

/-- A naive Python `datetime` (no timezone), to one-second resolution;
microseconds never reach the rendered output. -/
structure PyDatetime where
  year : Nat
  month : Nat
  day : Nat
  hour : Nat
  minute : Nat
  second : Nat
deriving DecidableEq

/-- Days-from-civil helper (proleptic Gregorian), shifted so the result is
a natural number: `dfc y m d = (days since 1970-01-01) + 719468`. -/
def dfc (y m d : Nat) : Nat :=
  let y' := if m ≤ 2 then y - 1 else y
  let era := y' / 400
  let yoe := y' % 400
  let mp := if 2 < m then m - 3 else m + 9
  let doy := (153 * mp + 2) / 5 + d - 1
  let doe := yoe * 365 + yoe / 4 - yoe / 100 + doy
  era * 146097 + doe

/-- Weekday with Monday = 0 (the indexing used by `email.utils`'s day-name
table).  1970-01-01 (`dfc = 719468`) was a Thursday. -/
def weekdayMon0 (y m d : Nat) : Nat := (dfc y m d + 2) % 7

/-- Day names as used by `email.utils.format_datetime`. -/
def dayNames : List String := ["Mon", "Tue", "Wed", "Thu", "Fri", "Sat", "Sun"]

/-- Month names as used by `email.utils.format_datetime`. -/
def monthNames : List String :=
  ["Jan", "Feb", "Mar", "Apr", "May", "Jun", "Jul", "Aug", "Sep", "Oct", "Nov", "Dec"]

/-- Model of `email.utils.format_datetime(dt)` for a naive datetime: RFC
2822 text `Www, DD Mon YYYY HH:MM:SS -0000`. -/
def formatDatetime (dt : PyDatetime) : String :=
  (dayNames.getD (weekdayMon0 dt.year dt.month dt.day) "") ++ ", " ++
  pad2 dt.day ++ " " ++ (monthNames.getD (dt.month - 1) "") ++ " " ++
  pad4 dt.year ++ " " ++ pad2 dt.hour ++ ":" ++ pad2 dt.minute ++ ":" ++
  pad2 dt.second ++ " -0000"

/-- Model of `datetime.utcfromtimestamp(t)` for a non-negative whole-second
timestamp (the sidecar mtime); civil-from-days on the day count. -/
def utcFromTimestamp (t : Nat) : PyDatetime :=
  let z := t / 86400 + 719468
  let secs := t % 86400
  let era := z / 146097
  let doe := z % 146097
  let yoe := (doe - doe / 1460 + doe / 36524 - doe / 146096) / 365
  let y := yoe + era * 400
  let doy := doe - (365 * yoe + yoe / 4 - yoe / 100)
  let mp := (5 * doy + 2) / 153
  let d := doy - (153 * mp + 2) / 5 + 1
  let m := if mp < 10 then mp + 3 else mp - 9
  ⟨if m ≤ 2 then y + 1 else y, m, d, secs / 3600, secs % 3600 / 60, secs % 60⟩

/-- Numeric value of an ASCII digit, if any. -/
def digitVal (c : Char) : Option Nat :=
  if c.isDigit then some (c.toNat - 48) else none

/-- Candidate matches, in regex preference order, of CPython
`_strptime`'s month pattern `1[0-2]|0[1-9]|[1-9]` at the head of the
input. -/
def monthCands (cs : List Char) : List (Nat × List Char) :=
  (match cs with
   | '1' :: c :: rest =>
     if '0' ≤ c ∧ c ≤ '2' then [(10 + (c.toNat - 48), rest)] else []
   | _ => []) ++
  (match cs with
   | '0' :: c :: rest =>
     if '1' ≤ c ∧ c ≤ '9' then [(c.toNat - 48, rest)] else []
   | _ => []) ++
  (match cs with
   | c :: rest =>
     if '1' ≤ c ∧ c ≤ '9' then [(c.toNat - 48, rest)] else []
   | _ => [])

/-- Candidate matches, in regex preference order, of CPython
`_strptime`'s day pattern `3[01]|[12]\d|0[1-9]|[1-9]` at the head of the
input. -/
def dayCands (cs : List Char) : List (Nat × List Char) :=
  (match cs with
   | '3' :: c :: rest =>
     if c = '0' ∨ c = '1' then [(30 + (c.toNat - 48), rest)] else []
   | _ => []) ++
  (match cs with
   | c1 :: c2 :: rest =>
     if ('1' ≤ c1 ∧ c1 ≤ '2') ∧ c2.isDigit
     then [(10 * (c1.toNat - 48) + (c2.toNat - 48), rest)] else []
   | _ => []) ++
  (match cs with
   | '0' :: c :: rest =>
     if '1' ≤ c ∧ c ≤ '9' then [(c.toNat - 48, rest)] else []
   | _ => []) ++
  (match cs with
   | c :: rest =>
     if '1' ≤ c ∧ c ≤ '9' then [(c.toNat - 48, rest)] else []
   | _ => [])

/-- Gregorian leap-year rule (as validated by `datetime`'s constructor). -/
def isLeap (y : Nat) : Bool := y % 4 = 0 && (y % 100 ≠ 0 || y % 400 = 0)

/-- Days in a month (as validated by `datetime`'s constructor). -/
def daysInMonth (y m : Nat) : Nat :=
  if m = 2 then (if isLeap y then 29 else 28)
  else if m = 4 ∨ m = 6 ∨ m = 9 ∨ m = 11 then 30
  else 31

/-- Model of `datetime.strptime(s, "%Y%m%d")` (line 75): CPython compiles
the format to the anchored regex `(\d\d\d\d)(1[0-2]|0[1-9]|[1-9])(3[01]|
[12]\d|0[1-9]|[1-9])`, takes the preference-order first match
(backtracking month alternatives when no day alternative fits), raises if
input remains unconsumed, and then validates the calendar date through the
`datetime` constructor.  Every failure mode is caught by the bare
`except` on line 76, so failure is `none`. -/
def strptimeYmd (s : String) : Option (Nat × Nat × Nat) :=
  match s.data with
  | c1 :: c2 :: c3 :: c4 :: rest =>
    match digitVal c1, digitVal c2, digitVal c3, digitVal c4 with
    | some a, some b, some c, some d =>
      let y := ((a * 10 + b) * 10 + c) * 10 + d
      match (monthCands rest).findSome? (fun mc =>
        ((dayCands mc.2).head?).map (fun dc => (mc.1, dc.1, dc.2))) with
      | some (m, dy, leftover) =>
        if leftover = [] ∧ 1 ≤ y ∧ dy ≤ daysInMonth y m then some (y, m, dy) else none
      | none => none
    | _, _, _, _ => none
  | _ => none

/-- Python truthiness of `j.get("upload_date")`: `None` and `""` are
falsy. -/
def truthyStr : Option String → Bool
  | none => false
  | some s => s != ""

/-- The `pubdate` computed on lines 72-80: a parsed upload date (midnight),
the mtime fallback, or `None` when a present, truthy upload date fails to
parse. -/
def pubdateOf (uploadDate : Option String) (mtime : Nat) : Option PyDatetime :=
  if truthyStr uploadDate then
    (strptimeYmd (uploadDate.getD "")).map (fun t => ⟨t.1, t.2.1, t.2.2, 0, 0, 0⟩)
  else some (utcFromTimestamp mtime)

/-- Line 81: `format_datetime(pubdate) if pubdate else ""`. -/
def pubdateRfc (uploadDate : Option String) (mtime : Nat) : String :=
  match pubdateOf uploadDate mtime with
  | some dt => formatDatetime dt
  | none => ""

/-! ## Filesystem data model

A `PlaylistDir` is the read-only view the script takes of one playlist
subdirectory: the names of the files that exist in it, the (parsed or
malformed) content of each `.info.json` it may open, and the per-file
mtimes, byte sizes, and ffprobe results.  ffprobe is the opaque external
duration probe; its outcome per media file is part of the input data,
`none` standing for any probe failure. -/

/-- Parsed content of a metadata sidecar; every field is optional, as with
`dict.get`. -/
structure SidecarData where
  title : Option String
  description : Option String
  upload_date : Option String
  thumbnail : Option String
deriving DecidableEq

/-- Result of `json.load` on a sidecar: parsed data, or a parse error
(which the script does not catch). -/
inductive SidecarContent where
  | malformed : SidecarContent
  | ok : SidecarData → SidecarContent
deriving DecidableEq

/-- One playlist subdirectory. -/
structure PlaylistDir where
  name : String
  files : List String
  sidecarContent : List (String × SidecarContent)
  mtimes : List (String × Nat)
  sizes : List (String × Nat)
  durations : List (String × Option ℚ)
deriving DecidableEq

/-- Boolean list membership for file names (models `os.path.exists`). -/
def memB (n : String) : List String → Bool
  | [] => false
  | a :: t => (n == a) || memB n t

/-- Association-list lookup by file name. -/
def lookupA {β : Type} (n : String) : List (String × β) → Option β
  | [] => none
  | e :: t => if n == e.1 then some e.2 else lookupA n t

/-- `os.path.exists` inside the playlist directory. -/
def PlaylistDir.has (p : PlaylistDir) (n : String) : Bool := memB n p.files

/-- `json.load` on a sidecar of this directory. -/
def lookupContent (p : PlaylistDir) (n : String) : SidecarContent :=
  (lookupA n p.sidecarContent).getD .malformed

/-- `os.path.getmtime` of a file of this directory (whole seconds). -/
def lookupMtime (p : PlaylistDir) (n : String) : Nat := (lookupA n p.mtimes).getD 0

/-- `os.path.getsize` of a file of this directory. -/
def lookupSize (p : PlaylistDir) (n : String) : Nat := (lookupA n p.sizes).getD 0

/-- `ffprobe_duration` of a media file of this directory. -/
def lookupDur (p : PlaylistDir) (n : String) : Option ℚ :=
  (lookupA n p.durations).getD none

/-! ## The per-item resolver (lines 67-113) -/

/-- Line 82: `mp3_path = info[:-9] + ".mp3"`, at the file-name level (the
directory part of the path is common to sidecar and media file).  Note
`[:-9]` drops only the 9 characters `info.json`, keeping the dot. -/
def mp3NameOf (f : String) : String := String.mk (dropLastN 9 f.data ++ ".mp3".data)

/-- The `for ext in ("jpg","png","jpeg")` loop with `break` of lines
96-100: the first extension whose `thumbnail.<ext>` exists wins. -/
def firstThumb (base : String) (p : PlaylistDir) : List String → Option String
  | [] => none
  | ext :: rest =>
    if p.has ("thumbnail." ++ ext) then
      some (base ++ "/" ++ pyQuote (p.name ++ "/thumbnail." ++ ext))
    else firstThumb base p rest

/-- Lines 95-102: artwork resolution.  `os.path.relpath(cand,
downloads_dir)` is `<playlist>/thumbnail.<ext>` for the paths the script
builds. -/
def artworkFor (base : String) (p : PlaylistDir) (j : SidecarData) : Option String :=
  match firstThumb base p ["jpg", "png", "jpeg"] with
  | some a => some a
  | none => if j.thumbnail.getD "" != "" then j.thumbnail else none

/-- The fields interpolated into one `<item>` block (lines 104-113).  The
script writes the same `url` variable into both the enclosure and the
guid; the resolver below sets both fields from it. -/
structure RItem where
  title : String
  desc : String
  pubdateRfc : String
  url : String
  filesize : Nat
  guid : String
  duration : String
deriving DecidableEq

/-- The f-string of lines 104-113, verbatim. -/
def itemXml (ri : RItem) : String :=
  "\n  <item>\n    <title>" ++ ri.title ++ "</title>\n    <description>" ++
  ri.desc ++ "</description>\n    <pubDate>" ++ ri.pubdateRfc ++
  "</pubDate>\n    <enclosure url=\"" ++ ri.url ++ "\" length=\"" ++
  toString ri.filesize ++ "\" type=\"audio/mpeg\" />\n    <guid>" ++ ri.guid ++
  "</guid>\n    <itunes:duration>" ++ ri.duration ++
  "</itunes:duration>\n  </item>\n"

/-- Loop body of lines 67-113 for one sidecar file name `f`: `.error` when
`json.load` raises (uncaught), `.ok none` when the item is skipped for a
missing media file, `.ok (some ri)` when the item is resolved.
`os.path.relpath(mp3_path, downloads_dir)` is `<playlist>/<mp3 name>` for
the paths the script builds. -/
def processInfo (base : String) (p : PlaylistDir) (f : String) :
    Except String (Option RItem) :=
  match lookupContent p f with
  | .malformed => .error ("Malformed sidecar: " ++ f)
  | .ok j =>
    let title := htmlEscape (j.title.getD "Untitled")
    let desc := htmlEscape (j.description.getD "")
    let pub := pubdateRfc j.upload_date (lookupMtime p f)
    let mp3 := mp3NameOf f
    if p.has mp3 then
      let filesize := lookupSize p mp3
      let dur := sec_to_itunes (lookupDur p mp3)
      let url := base ++ "/" ++ pyQuote (p.name ++ "/" ++ mp3)
      let _art := artworkFor base p j
      .ok (some ⟨title, desc, pub, url, filesize, url, dur⟩)
    else .ok none

/-! ## Playlist scan and feed assembly (lines 60-131) -/

/-- Lexicographic strict comparison of character lists by code point. -/
def listLtB : List Char → List Char → Bool
  | [], [] => false
  | [], _ :: _ => true
  | _ :: _, [] => false
  | a :: as, b :: bs =>
    if a.toNat < b.toNat then true
    else if b.toNat < a.toNat then false
    else listLtB as bs

/-- Comparison used to model Python `sorted` on strings (lexicographic by
code point, as Python compares strings). -/
def strLeB (a b : String) : Bool := !listLtB b.data a.data

/-- Insertion step of a stable insertion sort. -/
def insSorted (a : String) : List String → List String
  | [] => [a]
  | b :: bs => if strLeB a b then a :: b :: bs else b :: insSorted a bs

/-- Model of Python `sorted` on a list of strings. -/
def sortStr : List String → List String
  | [] => []
  | a :: as => insSorted a (sortStr as)

/-- Whether `glob.glob(os.path.join(ppath, "*.info.json"))` matches a file
name: suffix `.info.json`, and `*` patterns never match a leading dot. -/
def isInfoName (n : String) : Bool := endsWithL ".info.json" n && !startsWithDot n

/-- Line 65: the sidecar file names of a playlist directory, sorted. -/
def infoFiles (p : PlaylistDir) : List String := sortStr (p.files.filter isInfoName)

/-- The accumulation of `items_xml` over the loop of lines 67-113, with the
uncaught `json.load` exception short-circuiting. -/
def buildItems (base : String) (p : PlaylistDir) : List String → Except String (List RItem)
  | [] => .ok []
  | f :: rest =>
    match processInfo base p f with
    | .error e => .error e
    | .ok none => buildItems base p rest
    | .ok (some ri) =>
      match buildItems base p rest with
      | .error e => .error e
      | .ok l => .ok (ri :: l)

/-- The f-string of lines 118-127, verbatim (channel metadata of lines
115-117 inlined). -/
def rssDoc (base name : String) (items : List RItem) : String :=
  "<?xml version=\"1.0\" encoding=\"UTF-8\"?>\n<rss version=\"2.0\" xmlns:itunes=\"http://www.itunes.com/dtds/podcast-1.0.dtd\">\n  <channel>\n    <title>" ++
  htmlEscape name ++ "</title>\n    <link>" ++ base ++ "/" ++ pyQuote name ++
  "/</link>\n    <description>" ++
  htmlEscape ("Auto-generated podcast from YouTube playlist " ++ name) ++
  "</description>\n    <language>en-US</language>\n    " ++
  String.join (items.map itemXml) ++ "\n  </channel>\n</rss>"

/-- Lines 60-131 for one playlist directory: the written file name
`feed-<slug>.xml`, the document text, and the item count the summary line
reports — or the propagated sidecar parse error. -/
def processPlaylist (base : String) (p : PlaylistDir) :
    Except String (String × String × Nat) :=
  match buildItems base p (infoFiles p) with
  | .error e => .error e
  | .ok items =>
    .ok ("feed-" ++ slugify p.name ++ ".xml", rssDoc base p.name items, items.length)

/-- Observable outcome of a run: files written (name, content) in order,
summary lines (file name, item count), operator messages, and the process
exit status (1 models a Python traceback from an uncaught exception). -/
structure RunResult where
  written : List (String × String)
  counts : List (String × Nat)
  messages : List String
  exitCode : Nat
deriving DecidableEq

/-- The loop of lines 60-131 over the sorted playlist directories.  An
uncaught exception discards nothing already written but stops everything
after it. -/
def runPlaylists (base : String) : List PlaylistDir → RunResult
  | [] => ⟨[], [], [], 0⟩
  | p :: rest =>
    match processPlaylist base p with
    | .error e => ⟨[], [], [e], 1⟩
    | .ok (nm, doc, n) =>
      let r := runPlaylists base rest
      ⟨(nm, doc) :: r.written, (nm, n) :: r.counts, r.messages, r.exitCode⟩

/-- Stable insertion sort of playlist directories by name, modelling
`sorted(os.listdir(...))` on line 60 (entries that are not directories are
skipped on lines 62-63 and are not part of this model). -/
def insSortedP (a : PlaylistDir) : List PlaylistDir → List PlaylistDir
  | [] => [a]
  | b :: bs => if strLeB a.name b.name then a :: b :: bs else b :: insSortedP a bs

/-- Sort playlist directories by name. -/
def sortByName : List PlaylistDir → List PlaylistDir
  | [] => []
  | a :: as => insSortedP a (sortByName as)

/-- The downloads root: whether it exists, and its playlist
subdirectories. -/
structure Downloads where
  rootExists : Bool
  playlists : List PlaylistDir

/-- Lines 56-131: the whole script after argument parsing. -/
def runScript (base : String) (d : Downloads) : RunResult :=
  if d.rootExists then runPlaylists base (sortByName d.playlists)
  else ⟨[], [], ["No downloads folder, exiting."], 0⟩

/-! ## Definitions taken from the spec's words (for refinement claims) -/

/-- The pairing rule as the spec states it: the paired media path is the
sidecar path with its `.info.json` suffix replaced by `.mp3`. -/
def specPairedMedia (f : String) : String := String.mk (dropLastN 10 f.data ++ ".mp3".data)

/-- Erase every artwork input of a playlist directory: remove the
`thumbnail.<ext>` files and the metadata `thumbnail` fields.  Used to state
that rendered output does not depend on artwork. -/
def notThumbName (n : String) : Bool :=
  !(n == "thumbnail.jpg" || n == "thumbnail.png" || n == "thumbnail.jpeg")

/-- Clear the `thumbnail` field of a sidecar's parsed content. -/
def clearThumb : SidecarContent → SidecarContent
  | .malformed => .malformed
  | .ok j => .ok ⟨j.title, j.description, j.upload_date, none⟩

/-- A playlist directory with all artwork inputs removed. -/
def stripArtworkInputs (p : PlaylistDir) : PlaylistDir :=
  ⟨p.name, p.files.filter notThumbName,
   p.sidecarContent.map (fun nc => (nc.1, clearThumb nc.2)),
   p.mtimes, p.sizes, p.durations⟩

/-! ## Concrete fixtures used by counterexamples and witnesses -/

/-- A playlist with one sidecar, its (double-dot named) media file and a
`thumbnail.jpg`. -/
def pEx : PlaylistDir :=
  ⟨"My Show", ["001 - Ep.info.json", "001 - Ep..mp3", "thumbnail.jpg"],
   [("001 - Ep.info.json", .ok ⟨some "A & B", some "d", some "20240101", some "http://t"⟩)],
   [("001 - Ep.info.json", 1700000000)], [("001 - Ep..mp3", 4242)],
   [("001 - Ep..mp3", none)]⟩

/-- The document the script renders for `pEx`. -/
def docC5 : String :=
  match processPlaylist "https://bkt" pEx with
  | .ok r => r.2.1
  | .error _ => ""

/-- The layout of the script's own docstring and of the spec's end-to-end
test: a sidecar `001 - Ep.info.json` whose media pair `001 - Ep.mp3`
exists. -/
def pC3 : PlaylistDir :=
  ⟨"My Show", ["001 - Ep.info.json", "001 - Ep.mp3"],
   [("001 - Ep.info.json", .ok ⟨some "A & B", none, some "20240101", none⟩)],
   [("001 - Ep.info.json", 1700000000)], [("001 - Ep.mp3", 4242)], []⟩

/-- An empty playlist directory. -/
def goodA : PlaylistDir := ⟨"a", [], [], [], [], []⟩

/-- A playlist whose only sidecar is malformed (and has no media pair). -/
def badB : PlaylistDir := ⟨"b", ["x.info.json"], [("x.info.json", .malformed)], [], [], []⟩

/-- Another empty playlist directory, sorting after `badB`. -/
def goodC : PlaylistDir := ⟨"c", [], [], [], [], []⟩

/-- A downloads root with a healthy playlist, then a malformed one, then a
healthy one. -/
def dC4 : Downloads := ⟨true, [goodA, badB, goodC]⟩

/-- A playlist with no sidecars at all. -/
def pC10 : PlaylistDir := ⟨"Empty", ["a.mp3"], [], [], [], []⟩

/-- A playlist whose only sidecar is well-formed but has no media pair. -/
def pDrop : PlaylistDir :=
  ⟨"n", ["y.info.json"], [("y.info.json", .ok ⟨none, none, none, none⟩)], [], [], []⟩

/-- The slugify counterexample input: forty-nine `a`s, a space, and `b`. -/
def xC2 : String := String.mk (List.replicate 49 'a' ++ [' ', 'b'])

/-! ## Claim theorems -/

/-- C8: if the downloads root directory does not exist, the script prints
the informational message, writes no file, reports nothing else, and exits
with status 0. -/
theorem C8_absent_root (base : String) (d : Downloads) (h : d.rootExists = false) :
    runScript base d = ⟨[], [], ["No downloads folder, exiting."], 0⟩ := by
  simp [runScript, h]

/-- Witness for C8 at a concrete downloads root. -/
theorem C8_absent_root_witness :
    runScript "B" ⟨false, [pEx]⟩ = ⟨[], [], ["No downloads folder, exiting."], 0⟩ :=
  C8_absent_root "B" ⟨false, [pEx]⟩ rfl

/-- C3: the pairing rule of the code disagrees with the claim.  The claim
pairs a sidecar with the path obtained by replacing the `.info.json`
suffix with `.mp3` (here `001 - Ep.mp3`, which exists in `pC3`), but line
82's `info[:-9] + ".mp3"` drops only nine characters, producing
`001 - Ep..mp3`; the item with an existing media pair is therefore dropped
and the summary reports 0 items, against the claim (and the script's own
docstring layout). -/
theorem C3_pairing_bug :
    specPairedMedia "001 - Ep.info.json" = "001 - Ep.mp3"
  ∧ mp3NameOf "001 - Ep.info.json" = "001 - Ep..mp3"
  ∧ pC3.has (specPairedMedia "001 - Ep.info.json") = true
  ∧ processPlaylist "https://bkt" pC3 =
      .ok ("feed-my-show.xml", rssDoc "https://bkt" "My Show" [], 0) :=
  ⟨rfl, rfl, rfl, rfl⟩

/-- C10: a playlist whose sidecars are absent, or all well-formed but
dropped for a missing media pair, still gets `feed-<slug>.xml` written,
with the channel metadata, zero item blocks, and an item count of 0 in the
summary. -/
theorem C10_empty_feed (base : String) (p : PlaylistDir)
    (h : ∀ f ∈ infoFiles p, ∃ j, lookupContent p f = .ok j ∧ p.has (mp3NameOf f) = false) :
    processPlaylist base p =
      .ok ("feed-" ++ slugify p.name ++ ".xml", rssDoc base p.name [], 0) := by
  have hb : ∀ l : List String,
      (∀ f ∈ l, ∃ j, lookupContent p f = .ok j ∧ p.has (mp3NameOf f) = false) →
      buildItems base p l = .ok [] := by
    intro l
    induction l with
    | nil => intro _; rfl
    | cons f t ih =>
      intro hl
      obtain ⟨j, hj, hmp3⟩ := hl f (by simp)
      have ht := ih (fun g hg => hl g (by simp [hg]))
      simp [buildItems, processInfo, hj, hmp3, ht]
  simp [processPlaylist, hb (infoFiles p) h]

/-- Witness for C10: a playlist with no sidecars at all. -/
theorem C10_empty_feed_witness :
    processPlaylist "B" pC10 = .ok ("feed-empty.xml", rssDoc "B" "Empty" [], 0) :=
  C10_empty_feed "B" pC10 (by
    intro f hf
    rw [show infoFiles pC10 = [] from rfl] at hf
    exact absurd hf (List.not_mem_nil f))

/-- C9: the sidecar is parsed before the media pair's existence is
checked: a malformed sidecar raises (for any playlist state, in
particular when its media pair is absent), while a well-formed sidecar
without a media pair is silently dropped. -/
theorem C9_parse_before_existence (base : String) (p : PlaylistDir) (f : String) :
    (lookupContent p f = .malformed →
      processInfo base p f = .error ("Malformed sidecar: " ++ f))
  ∧ (∀ j, lookupContent p f = .ok j → p.has (mp3NameOf f) = false →
      processInfo base p f = .ok none) := by
  constructor
  · intro h; simp [processInfo, h]
  · intro j hj hmp3; simp [processInfo, hj, hmp3]

/-- Witness for C9: a malformed sidecar whose media pair is absent raises;
a well-formed sidecar whose media pair is absent is dropped. -/
theorem C9_parse_before_existence_witness :
    badB.has (mp3NameOf "x.info.json") = false
  ∧ processInfo "B" badB "x.info.json" = .error ("Malformed sidecar: " ++ "x.info.json")
  ∧ processInfo "B" pDrop "y.info.json" = .ok none :=
  ⟨rfl, (C9_parse_before_existence "B" badB "x.info.json").1 rfl,
   (C9_parse_before_existence "B" pDrop "y.info.json").2 ⟨none, none, none, none⟩ rfl rfl⟩

/-- C1 counterexample: an upload date that is present but unparseable
renders an empty pubDate, not the RFC-2822 form of the sidecar's mtime as
the claim states. -/
theorem C1_counterexample :
    pubdateRfc (some "banana") 1000000 ≠ formatDatetime (utcFromTimestamp 1000000) := by
  decide

/-- C1 (amended): publish date derivation as the code implements it.  When
the upload-date field is absent or empty (falsy), the sidecar mtime is
used and formatted per RFC 2822; when it is present, non-empty and parses,
the parsed date (at midnight) is used regardless of mtime; when it is
present, non-empty and fails to parse, the rendered pubDate is the empty
string — there is no mtime fallback on parse failure. -/
theorem C1_pubdate_policy :
    (∀ t, pubdateRfc none t = formatDatetime (utcFromTimestamp t))
  ∧ (∀ t, pubdateRfc (some "") t = formatDatetime (utcFromTimestamp t))
  ∧ (∀ s t, s ≠ "" → strptimeYmd s = none → pubdateRfc (some s) t = "")
  ∧ (∀ s t y m d, s ≠ "" → strptimeYmd s = some (y, m, d) →
      pubdateRfc (some s) t = formatDatetime ⟨y, m, d, 0, 0, 0⟩)
  ∧ (∀ t, pubdateRfc (some "20230615") t = "Thu, 15 Jun 2023 00:00:00 -0000") := by
  refine ⟨fun t => rfl, fun t => rfl, ?_, ?_, fun t => rfl⟩
  · intro s t hs hn
    have ht : truthyStr (some s) = true := by simp [truthyStr, hs]
    simp [pubdateRfc, pubdateOf, ht, hn]
  · intro s t y m d hs hp
    have ht : truthyStr (some s) = true := by simp [truthyStr, hs]
    simp [pubdateRfc, pubdateOf, ht, hp]

/-- Witness for C1 at concrete inputs: an unparseable upload date gives an
empty pubDate; a parseable one gives its RFC-2822 midnight form. -/
theorem C1_pubdate_policy_witness :
    pubdateRfc (some "banana") 5 = ""
  ∧ pubdateRfc (some "20240101") 5 = formatDatetime ⟨2024, 1, 1, 0, 0, 0⟩ :=
  ⟨C1_pubdate_policy.2.2.1 "banana" 5 (by decide) rfl,
   C1_pubdate_policy.2.2.2.1 "20240101" 5 2024 1 1 (by decide) rfl⟩

/-- C4: a malformed sidecar aborts the whole run with a nonzero exit
status; the files written are exactly those of the playlists processed
before it — nothing is written for the failing playlist, nor for any
playlist after it. -/
theorem C4_abort (base : String) (d : Downloads) (before : List PlaylistDir)
    (p : PlaylistDir) (after : List PlaylistDir)
    (hroot : d.rootExists = true)
    (hsplit : sortByName d.playlists = before ++ p :: after)
    (hbefore : ∀ q ∈ before, ∃ r, processPlaylist base q = .ok r)
    (hp : ∃ e, processPlaylist base p = .error e) :
    (runScript base d).exitCode = 1 ∧
    (runScript base d).written = before.filterMap (fun q =>
      match processPlaylist base q with
      | .ok r => some (r.1, r.2.1)
      | .error _ => none) := by
  obtain ⟨e, he⟩ := hp
  have main : ∀ bs : List PlaylistDir, (∀ q ∈ bs, ∃ r, processPlaylist base q = .ok r) →
      (runPlaylists base (bs ++ p :: after)).exitCode = 1 ∧
      (runPlaylists base (bs ++ p :: after)).written = bs.filterMap (fun q =>
        match processPlaylist base q with
        | .ok r => some (r.1, r.2.1)
        | .error _ => none) := by
    intro bs
    induction bs with
    | nil => intro _; simp [runPlaylists, he]
    | cons q rest ih =>
      intro hq
      obtain ⟨r, hr⟩ := hq q (by simp)
      obtain ⟨nm, doc, n⟩ := r
      have ih' := ih (fun x hx => hq x (by simp [hx]))
      rw [List.cons_append]
      constructor
      · simpa [runPlaylists, hr] using ih'.1
      · simp only [runPlaylists, hr, List.filterMap_cons]
        simpa using ih'.2
  rw [runScript, if_pos (by simp [hroot]), hsplit]
  exact main before hbefore

/-- Witness for C4: a healthy playlist `a`, then a malformed one `b`, then
a healthy one `c`: only `a`'s feed is written and the exit status is 1. -/
theorem C4_abort_witness :
    (runScript "B" dC4).exitCode = 1 ∧
    (runScript "B" dC4).written = [("feed-a.xml", rssDoc "B" "a" [])] := by
  have h := C4_abort "B" dC4 [goodA] badB [goodC] rfl (by decide)
    (by
      intro q hq
      have : q = goodA := by simpa using hq
      subst this
      exact ⟨_, rfl⟩)
    ⟨"Malformed sidecar: " ++ "x.info.json", rfl⟩
  refine ⟨h.1, ?_⟩
  rw [h.2]
  rfl

/-- Casting helper: printing an integer that comes from a natural prints
the natural. -/
theorem tsIntNat (k : ℕ) : toString ((k : ℕ) : ℤ) = toString k := rfl

/-- Casting helper: two-digit padding of an integer that comes from a
natural agrees with the natural version. -/
theorem p2IntNat (k : ℕ) : pad2Int ((k : ℕ) : ℤ) = pad2 k := by
  unfold pad2Int pad2
  by_cases h : k < 10
  · rw [if_pos ⟨Int.natCast_nonneg k, by exact_mod_cast h⟩, if_pos h, tsIntNat]
  · rw [if_neg (fun hc => h (by exact_mod_cast hc.2)), if_neg h, tsIntNat]

/-- Python `round` is the identity on whole numbers. -/
theorem pyRound_natCast (n : ℕ) : pyRound ((n : ℕ) : ℚ) = (n : ℤ) := by
  have h0 : ((n : ℕ) : ℚ) - (((n : ℕ) : ℤ) : ℚ) = 0 := by push_cast; ring
  simp only [pyRound, Int.floor_natCast, h0]
  norm_num

/-- Python `round(59.6)` is 60. -/
theorem pyRound_ex1 : pyRound (59.6 : ℚ) = 60 := by
  have he : (59.6 : ℚ) = 596 / 10 := by norm_num
  have hf : Int.floor ((596 : ℚ) / 10) = 59 := by
    rw [Int.floor_eq_iff]
    norm_num
  simp only [pyRound, he, hf]
  norm_num

/-- Python `round(3599.4)` is 3599. -/
theorem pyRound_ex2 : pyRound (3599.4 : ℚ) = 3599 := by
  have he : (3599.4 : ℚ) = 17997 / 5 := by norm_num
  have hf : Int.floor ((17997 : ℚ) / 5) = 3599 := by
    rw [Int.floor_eq_iff]
    norm_num
  simp only [pyRound, he, hf]
  norm_num

/-- Python `round(3600)` is 3600. -/
theorem pyRound_ex3 : pyRound (3600 : ℚ) = 3600 := by
  have hf : Int.floor (3600 : ℚ) = 3600 := by norm_num
  simp only [pyRound, hf]
  norm_num

/-- C6: the duration formatter maps `unavailable` to the empty string;
`format(59.6) = "1:00"`, `format(3599.4) = "59:59"`, `format(3600) =
"1:00:00"`; and on whole-second inputs it emits `H:MM:SS` (minutes and
seconds two-digit padded) exactly when the hour part `n / 3600` is
nonzero, else `M:SS` with unpadded minutes, with hours, minutes and
seconds obtained by division/modulus by 3600 and 60.  Rounding of
fractional input is Python `round`, i.e. half-to-even at ties. -/
theorem C6_duration_format :
    sec_to_itunes none = ""
  ∧ sec_to_itunes (some (59.6 : ℚ)) = "1:00"
  ∧ sec_to_itunes (some (3599.4 : ℚ)) = "59:59"
  ∧ sec_to_itunes (some (3600 : ℚ)) = "1:00:00"
  ∧ (∀ n : ℕ, sec_to_itunes (some ((n : ℕ) : ℚ)) =
      if 3600 ≤ n
      then toString (n / 3600) ++ ":" ++ pad2 (n % 3600 / 60) ++ ":" ++ pad2 (n % 60)
      else toString (n % 3600 / 60) ++ ":" ++ pad2 (n % 60)) := by
  refine ⟨rfl, ?_, ?_, ?_, ?_⟩
  · simp only [sec_to_itunes, pyRound_ex1]
    rfl
  · simp only [sec_to_itunes, pyRound_ex2]
    rfl
  · simp only [sec_to_itunes, pyRound_ex3]
    rfl
  · intro n
    simp only [sec_to_itunes, pyRound_natCast]
    rw [show (3600 : ℤ) = ((3600 : ℕ) : ℤ) from rfl, show (60 : ℤ) = ((60 : ℕ) : ℤ) from rfl]
    simp only [← Int.ofNat_fmod, ← Int.ofNat_fdiv]
    have hcond : ((((n / 3600 : ℕ) : ℤ)) ≠ 0) ↔ 3600 ≤ n := by
      rw [ne_eq, Int.natCast_eq_zero]
      rw [Nat.div_eq_zero_iff (by norm_num)]
      exact not_lt
    by_cases hc : 3600 ≤ n
    · rw [if_pos (hcond.mpr hc), if_pos hc, tsIntNat, p2IntNat, p2IntNat]
    · rw [if_neg (fun h => hc (hcond.mp h)), if_neg hc, tsIntNat, p2IntNat]

set_option maxRecDepth 4096

/-- `splitOnChar` never returns the empty list of groups. -/
theorem splitOnChar_ne_nil (sep : Char) (cs : List Char) : splitOnChar sep cs ≠ [] := by
  cases cs with
  | nil => simp [splitOnChar]
  | cons a rest =>
    by_cases ha : a = sep
    · simp [splitOnChar, ha]
    · rcases h : splitOnChar sep rest with _ | ⟨g, gs⟩ <;>
        simp [splitOnChar, ha, h]

/-- Every character of a group of `splitOnChar` is a character of the
input. -/
theorem splitOnChar_sub (sep : Char) :
    ∀ (cs : List Char) (g : List Char), g ∈ splitOnChar sep cs → ∀ c ∈ g, c ∈ cs := by
  intro cs
  induction cs with
  | nil =>
    intro g hg c hc
    simp [splitOnChar] at hg
    subst hg
    simp at hc
  | cons a rest ih =>
    intro g hg c hc
    by_cases ha : a = sep
    · simp only [splitOnChar, ha, beq_self_eq_true, if_true, List.mem_cons] at hg
      rcases hg with hg | hg
      · subst hg; simp at hc
      · exact List.mem_cons_of_mem a (ih g hg c hc)
    · rcases hsp : splitOnChar sep rest with _ | ⟨g0, gs⟩
      · exact absurd hsp (splitOnChar_ne_nil sep rest)
      · rw [show splitOnChar sep (a :: rest) = (a :: g0) :: gs by
            simp [splitOnChar, ha, hsp]] at hg
        rcases List.mem_cons.mp hg with hg | hg
        · subst hg
          rcases List.mem_cons.mp hc with rfl | hc'
          · exact List.mem_cons_self _ _
          · exact List.mem_cons_of_mem a
              (ih g0 (by rw [hsp]; exact List.mem_cons_self _ _) c hc')
        · exact List.mem_cons_of_mem a
            (ih g (by rw [hsp]; exact List.mem_cons_of_mem _ hg) c hc)

/-- No group of `splitOnChar` contains the separator. -/
theorem splitOnChar_nosep (sep : Char) :
    ∀ (cs : List Char) (g : List Char), g ∈ splitOnChar sep cs → sep ∉ g := by
  intro cs
  induction cs with
  | nil =>
    intro g hg
    simp [splitOnChar] at hg
    subst hg
    simp
  | cons a rest ih =>
    intro g hg
    by_cases ha : a = sep
    · simp only [splitOnChar, ha, beq_self_eq_true, if_true, List.mem_cons] at hg
      rcases hg with hg | hg
      · subst hg; simp
      · exact ih g hg
    · rcases hsp : splitOnChar sep rest with _ | ⟨g0, gs⟩
      · exact absurd hsp (splitOnChar_ne_nil sep rest)
      · rw [show splitOnChar sep (a :: rest) = (a :: g0) :: gs by
            simp [splitOnChar, ha, hsp]] at hg
        rcases List.mem_cons.mp hg with hg | hg
        · subst hg
          intro hmem
          rcases List.mem_cons.mp hmem with hsep | hsep
          · exact ha hsep.symm
          · exact ih g0 (by rw [hsp]; exact List.mem_cons_self _ _) hsep
        · exact ih g (by rw [hsp]; exact List.mem_cons_of_mem _ hg)

/-- Every character of `joinChar sep gs` is the separator or a character
of one of the groups. -/
theorem joinChar_sub (sep : Char) :
    ∀ (gs : List (List Char)) (c : Char), c ∈ joinChar sep gs →
      c = sep ∨ ∃ g ∈ gs, c ∈ g := by
  intro gs
  induction gs with
  | nil => intro c hc; simp [joinChar] at hc
  | cons g gs' ih =>
    intro c hc
    cases gs' with
    | nil => exact Or.inr ⟨g, by simp, by simpa [joinChar] using hc⟩
    | cons g2 gs2 =>
      rw [show joinChar sep (g :: g2 :: gs2) = g ++ sep :: joinChar sep (g2 :: gs2)
          from rfl] at hc
      rcases List.mem_append.mp hc with h | h
      · exact Or.inr ⟨g, by simp, h⟩
      · rcases List.mem_cons.mp h with rfl | h2
        · exact Or.inl rfl
        · rcases ih c h2 with h3 | ⟨g', hg', hcg'⟩
          · exact Or.inl h3
          · exact Or.inr ⟨g', by simp [hg'], hcg'⟩

/-- The first character of a join headed by a non-empty group is that
group's first character. -/
theorem joinChar_head (sep a : Char) (g : List Char) (gs : List (List Char)) :
    (joinChar sep ((a :: g) :: gs)).head? = some a := by
  cases gs <;> rfl

/-- Taking 50 characters does not change the first one. -/
theorem head_take50 (l : List Char) : (l.take 50).head? = l.head? := by
  cases l <;> rfl

/-- On ASCII code points, lowercasing then replacing non-alphanumerics by
`-` lands in the alphabet `[a-z0-9-]`. -/
theorem asciiSlugChar :
    ∀ n : Nat, n < 128 → isSlugChar (repChar (Char.toLower (Char.ofNat n))) = true := by
  decide

/-- On ASCII code points, lowercasing preserves non-alphanumericity. -/
theorem asciiAlnumLower :
    ∀ n : Nat, n < 128 → isAlnumAscii (Char.ofNat n) = false →
      isAlnumAscii (Char.toLower (Char.ofNat n)) = false := by
  decide

/-- C2 counterexample: `slugify` truncates to 50 characters after
stripping separators, so the string of forty-nine `a`s, a space and `b`
slugifies to forty-nine `a`s followed by `-`: the output ends in `-` and
a second application of `slugify` strips it, refuting idempotence. -/
theorem C2_counterexample :
    slugify (slugify xC2) ≠ slugify xC2 ∧ (slugify xC2).data.getLast? = some '-' := by
  constructor
  · decide
  · decide

/-- C2 (amended): for ASCII input, `slugify` emits only `[a-z0-9-]`, at
most 50 characters, never starts with `-`, and maps empty or entirely
non-alphanumeric input to the empty token.  However, because truncation to
50 characters happens after separator stripping, the output can end in
`-`, and `slugify` is not idempotent (see the counterexample). -/
theorem C2_slug_props (x : String) (hx : ∀ c ∈ x.data, c.toNat < 128) :
    (∀ c ∈ (slugify x).data, isSlugChar c = true)
  ∧ (slugify x).data.length ≤ 50
  ∧ (slugify x).data.head? ≠ some '-'
  ∧ ((∀ c ∈ x.data, isAlnumAscii c = false) → slugify x = "") := by
  refine ⟨?_, ?_, ?_, ?_⟩
  · intro c hc
    simp only [slugify] at hc
    have hc' : c ∈ joinChar '-'
        ((splitOnChar '-' ((x.data.map Char.toLower).map repChar)).filter
          (fun g => !g.isEmpty)) := List.mem_of_mem_take hc
    rcases joinChar_sub '-' _ c hc' with rfl | ⟨g, hg, hcg⟩
    · decide
    · have hgs := (List.mem_filter.mp hg).1
      have hcr := splitOnChar_sub '-' _ g hgs c hcg
      rcases List.mem_map.mp hcr with ⟨b, hb, rfl⟩
      rcases List.mem_map.mp hb with ⟨a, ha, rfl⟩
      have h := asciiSlugChar a.toNat (hx a ha)
      rwa [Char.ofNat_toNat] at h
  · have h : (slugify x).data = List.take 50 (joinChar '-'
        ((splitOnChar '-' ((x.data.map Char.toLower).map repChar)).filter
          (fun g => !g.isEmpty))) := rfl
    rw [h, List.length_take]
    exact min_le_left _ _
  · simp only [slugify]
    rcases hj : joinChar '-'
        ((splitOnChar '-' ((x.data.map Char.toLower).map repChar)).filter
          (fun g => !g.isEmpty)) with _ | ⟨c, t⟩
    · simp [hj]
    · rw [head_take50]
      rcases hG : (splitOnChar '-' ((x.data.map Char.toLower).map repChar)).filter
          (fun g => !g.isEmpty) with _ | ⟨g0, gs⟩
      · rw [hG] at hj; simp [joinChar] at hj
      · rcases hg0 : g0 with _ | ⟨a, g'⟩
        · have := (List.mem_filter.mp (hG ▸ List.mem_cons_self g0 gs)).2
          rw [hg0] at this
          simp at this
        · rw [hG, hg0] at hj
          have hmem : g0 ∈ splitOnChar '-' ((x.data.map Char.toLower).map repChar) :=
            (List.mem_filter.mp (hG ▸ List.mem_cons_self g0 gs)).1
          have hns := splitOnChar_nosep '-' _ g0 hmem
          have ha : a ≠ '-' := by
            intro hEq
            apply hns
            rw [hg0, hEq]
            exact List.mem_cons_self _ _
          have hhead : (c :: t).head? = some a := by
            rw [← hj]
            exact joinChar_head '-' a g' gs
          have hca : c = a := by injection hhead
          intro hcontra
          rw [show (c :: t).head? = some c from rfl] at hcontra
          injection hcontra with h2
          exact ha (hca ▸ h2)
  · intro hall
    have hrep : ∀ c ∈ (x.data.map Char.toLower).map repChar, c = '-' := by
      intro c hc
      rcases List.mem_map.mp hc with ⟨b, hb, rfl⟩
      rcases List.mem_map.mp hb with ⟨a, ha, rfl⟩
      have h128 := hx a ha
      have hlow : isAlnumAscii (Char.toLower a) = false := by
        have := asciiAlnumLower a.toNat h128 (by rw [Char.ofNat_toNat]; exact hall a ha)
        rwa [Char.ofNat_toNat] at this
      simp [repChar, hlow]
    have hgroups : ∀ g ∈ splitOnChar '-' ((x.data.map Char.toLower).map repChar),
        g = [] := by
      intro g hg
      rcases hcase : g with _ | ⟨a, g'⟩
      · rfl
      · have ha : a ∈ (x.data.map Char.toLower).map repChar :=
          splitOnChar_sub '-' _ g hg a (by rw [hcase]; exact List.mem_cons_self _ _)
        have haEq := hrep a ha
        have hns := splitOnChar_nosep '-' _ g hg
        exact absurd (by rw [hcase, ← haEq]; exact List.mem_cons_self _ _) hns
    have hfilter : (splitOnChar '-' ((x.data.map Char.toLower).map repChar)).filter
        (fun g => !g.isEmpty) = [] := by
      rw [List.filter_eq_nil_iff]
      intro g hg
      rw [hgroups g hg]
      simp
    simp only [slugify, hfilter]
    rfl

/-- Witness for C2 at a concrete ASCII input. -/
theorem C2_slug_props_witness :
    (∀ c ∈ (slugify "Hello, World!").data, isSlugChar c = true)
  ∧ (slugify "Hello, World!").data.length ≤ 50
  ∧ (slugify "Hello, World!").data.head? ≠ some '-'
  ∧ ((∀ c ∈ ("Hello, World!" : String).data, isAlnumAscii c = false) →
      slugify "Hello, World!" = "") :=
  C2_slug_props "Hello, World!" (by decide)

/-- Unfolding step of `pyQuoteL`. -/
theorem pyQuoteL_cons (c : Char) (rest : List Char) :
    pyQuoteL (c :: rest) = quoteChar c ++ pyQuoteL rest := rfl

/-- `urllib.parse.quote`'s default `safe='/'` leaves the path separator
unchanged. -/
theorem quoteChar_slash : quoteChar '/' = ['/'] := by decide

/-- `quote` encodes around path separators: the encoding of a string is
the separator-join of the encodings of its `'/'`-separated segments. -/
theorem pyQuoteL_slash (cs : List Char) :
    pyQuoteL cs = joinChar '/' ((splitOnChar '/' cs).map pyQuoteL) := by
  induction cs with
  | nil => rfl
  | cons c rest ih =>
    by_cases hc : c = '/'
    · subst hc
      rcases hsp : splitOnChar '/' rest with _ | ⟨g, gs⟩
      · exact absurd hsp (splitOnChar_ne_nil '/' rest)
      · have e1 : splitOnChar '/' ('/' :: rest) = [] :: splitOnChar '/' rest := by
          simp [splitOnChar]
        rw [e1, pyQuoteL_cons, quoteChar_slash, ih, hsp]
        rfl
    · have hcb : (c == '/') = false := by simp [hc]
      rcases hsp : splitOnChar '/' rest with _ | ⟨g, gs⟩
      · exact absurd hsp (splitOnChar_ne_nil '/' rest)
      · have e1 : splitOnChar '/' (c :: rest) = (c :: g) :: gs := by
          simp [splitOnChar, hcb, hsp]
        rw [e1, pyQuoteL_cons, ih, hsp]
        cases gs with
        | nil => rfl
        | cons g2 gs2 =>
          rw [show joinChar '/' (((c :: g) :: g2 :: gs2).map pyQuoteL) =
              pyQuoteL (c :: g) ++ '/' :: joinChar '/' ((g2 :: gs2).map pyQuoteL) from rfl]
          rw [show joinChar '/' ((g :: g2 :: gs2).map pyQuoteL) =
              pyQuoteL g ++ '/' :: joinChar '/' ((g2 :: gs2).map pyQuoteL) from rfl]
          rw [pyQuoteL_cons, List.append_assoc]

/-- C7: for a resolved item, the stable identifier equals the enclosure
URL, which is the URL base, a `/`, and the percent-encoded media path
relative to the downloads root; the encoding encodes each `/`-separated
segment and preserves the separators, turning spaces into `%20`. -/
theorem C7_enclosure_guid :
    (∀ (base : String) (p : PlaylistDir) (f : String) (j : SidecarData),
      lookupContent p f = .ok j → p.has (mp3NameOf f) = true →
      ∃ ri : RItem, processInfo base p f = .ok (some ri) ∧ ri.guid = ri.url ∧
        ri.url = base ++ "/" ++ pyQuote (p.name ++ "/" ++ mp3NameOf f))
  ∧ (∀ s : String, pyQuote s = joinSlash ((splitSlash s).map pyQuote))
  ∧ pyQuote "My Show/001 - Ep..mp3" = "My%20Show/001%20-%20Ep..mp3" := by
  refine ⟨?_, ?_, ?_⟩
  · intro base p f j h1 h2
    refine ⟨⟨htmlEscape (j.title.getD "Untitled"), htmlEscape (j.description.getD ""),
      pubdateRfc j.upload_date (lookupMtime p f),
      base ++ "/" ++ pyQuote (p.name ++ "/" ++ mp3NameOf f),
      lookupSize p (mp3NameOf f),
      base ++ "/" ++ pyQuote (p.name ++ "/" ++ mp3NameOf f),
      sec_to_itunes (lookupDur p (mp3NameOf f))⟩, ?_, rfl, rfl⟩
    simp [processInfo, h1, h2]
  · intro s
    unfold pyQuote joinSlash splitSlash
    rw [pyQuoteL_slash s.data]
    congr 1
    rw [List.map_map, List.map_map]
    rfl
  · decide

/-- Witness for C7 at a concrete playlist. -/
theorem C7_enclosure_guid_witness :
    (∃ ri : RItem, processInfo "https://bkt" pEx "001 - Ep.info.json" = .ok (some ri) ∧
      ri.guid = ri.url ∧
      ri.url = "https://bkt" ++ "/" ++
        pyQuote ("My Show" ++ "/" ++ mp3NameOf "001 - Ep.info.json"))
  ∧ pyQuote "a b" = joinSlash ((splitSlash "a b").map pyQuote) :=
  ⟨C7_enclosure_guid.1 "https://bkt" pEx "001 - Ep.info.json"
    ⟨some "A & B", some "d", some "20240101", some "http://t"⟩ rfl rfl,
   C7_enclosure_guid.2.1 "a b"⟩

/-- The last element of a list extended by four elements. -/
theorem getLast_app4 (l : List Char) (a b c d : Char) :
    (l ++ [a, b, c, d]).getLast? = some d := by
  rw [show [a, b, c, d] = [a, b, c] ++ [d] from rfl, ← List.append_assoc]
  exact List.getLast?_concat _

/-- A computed media file name (ending in `3`) never equals a string
ending in `g`, such as the thumbnail file names. -/
theorem mp3Name_ne (f t : String) (ht : t.data.getLast? = some 'g') : mp3NameOf f ≠ t := by
  intro h
  have h2 := congrArg (fun s => s.data.getLast?) h
  simp only [] at h2
  rw [show (mp3NameOf f).data = dropLastN 9 f.data ++ ['.', 'm', 'p', '3'] from rfl] at h2
  rw [getLast_app4, ht] at h2
  exact absurd h2 (by decide)

/-- Media file names survive the thumbnail-removing filter. -/
theorem notThumbName_mp3 (f : String) : notThumbName (mp3NameOf f) = true := by
  have h1 := mp3Name_ne f "thumbnail.jpg" (by decide)
  have h2 := mp3Name_ne f "thumbnail.png" (by decide)
  have h3 := mp3Name_ne f "thumbnail.jpeg" (by decide)
  simp [notThumbName, h1, h2, h3]

/-- Sidecar file names survive the thumbnail-removing filter. -/
theorem notThumbName_info (n : String) (h : isInfoName n = true) : notThumbName n = true := by
  by_cases h1 : n = "thumbnail.jpg"
  · rw [h1] at h; exact absurd h (by decide)
  · by_cases h2 : n = "thumbnail.png"
    · rw [h2] at h; exact absurd h (by decide)
    · by_cases h3 : n = "thumbnail.jpeg"
      · rw [h3] at h; exact absurd h (by decide)
      · simp [notThumbName, h1, h2, h3]

/-- Association lookup commutes with mapping over the values. -/
theorem lookupA_map_val {β γ : Type} (f : β → γ) (l : List (String × β)) (k : String) :
    lookupA k (l.map (fun nc => (nc.1, f nc.2))) = (lookupA k l).map f := by
  induction l with
  | nil => rfl
  | cons e t ih =>
    by_cases h : k = e.1
    · simp [lookupA, h]
    · simp [lookupA, h, ih]

/-- Filtering with a predicate that holds of `n` does not change whether
`n` is a member. -/
theorem memB_filter (pred : String → Bool) (n : String) (h : pred n = true) :
    ∀ l : List String, memB n (l.filter pred) = memB n l := by
  intro l
  induction l with
  | nil => rfl
  | cons a t ih =>
    by_cases hna : n = a
    · subst hna
      rw [List.filter_cons, if_pos (by simp [h])]
      simp [memB, ih]
    · have hb : (n == a) = false := by simp [hna]
      cases hpa : pred a with
      | false =>
        rw [List.filter_cons, if_neg (by simp [hpa]), ih]
        rw [show memB n (a :: t) = ((n == a) || memB n t) from rfl, hb]
        simp
      | true =>
        rw [List.filter_cons, if_pos (by simp [hpa])]
        simp [memB, hb, ih]

/-- Removing thumbnail inputs maps the looked-up sidecar content through
`clearThumb`. -/
theorem strip_lookupContent (p : PlaylistDir) (f : String) :
    lookupContent (stripArtworkInputs p) f = clearThumb (lookupContent p f) := by
  show (lookupA f (p.sidecarContent.map (fun nc => (nc.1, clearThumb nc.2)))).getD .malformed =
    clearThumb ((lookupA f p.sidecarContent).getD .malformed)
  rw [lookupA_map_val]
  cases lookupA f p.sidecarContent <;> rfl

/-- Removing thumbnail inputs does not change whether a media pair
exists. -/
theorem strip_has_mp3 (p : PlaylistDir) (f : String) :
    (stripArtworkInputs p).has (mp3NameOf f) = p.has (mp3NameOf f) := by
  show memB (mp3NameOf f) (p.files.filter notThumbName) = memB (mp3NameOf f) p.files
  exact memB_filter notThumbName (mp3NameOf f) (notThumbName_mp3 f) p.files

/-- Removing thumbnail inputs does not change mtimes. -/
theorem strip_mtime (p : PlaylistDir) (f : String) :
    lookupMtime (stripArtworkInputs p) f = lookupMtime p f := rfl

/-- Removing thumbnail inputs does not change sizes. -/
theorem strip_size (p : PlaylistDir) (n : String) :
    lookupSize (stripArtworkInputs p) n = lookupSize p n := rfl

/-- Removing thumbnail inputs does not change probe results. -/
theorem strip_dur (p : PlaylistDir) (n : String) :
    lookupDur (stripArtworkInputs p) n = lookupDur p n := rfl

/-- Removing thumbnail inputs does not change the playlist name. -/
theorem strip_pname (p : PlaylistDir) : (stripArtworkInputs p).name = p.name := rfl

/-- Per-item resolution is unchanged by removing every artwork input:
artwork is computed but never used in the resolved item. -/
theorem strip_processInfo (base : String) (p : PlaylistDir) (f : String) :
    processInfo base (stripArtworkInputs p) f = processInfo base p f := by
  unfold processInfo
  rw [strip_lookupContent]
  cases hc : lookupContent p f with
  | malformed => rfl
  | ok j =>
    simp only [clearThumb]
    simp [strip_has_mp3, strip_mtime, strip_size, strip_dur, strip_pname]

/-- Sidecar enumeration is unchanged by removing thumbnail files. -/
theorem filter_info_notThumb (l : List String) :
    (l.filter notThumbName).filter isInfoName = l.filter isInfoName := by
  induction l with
  | nil => rfl
  | cons a t ih =>
    cases hnt : notThumbName a with
    | false =>
      have hi : isInfoName a = false := by
        cases hcase : isInfoName a with
        | false => rfl
        | true => rw [notThumbName_info a hcase] at hnt; cases hnt
      rw [List.filter_cons, if_neg (by simp [hnt]), ih, List.filter_cons,
        if_neg (by simp [hi])]
    | true =>
      rw [List.filter_cons, if_pos (by simp [hnt])]
      cases hi : isInfoName a with
      | true =>
        rw [List.filter_cons, if_pos (by simp [hi]), ih, List.filter_cons,
          if_pos (by simp [hi])]
      | false =>
        rw [List.filter_cons, if_neg (by simp [hi]), ih, List.filter_cons,
          if_neg (by simp [hi])]

/-- Item accumulation is unchanged by removing every artwork input. -/
theorem strip_buildItems (base : String) (p : PlaylistDir) :
    ∀ l : List String, buildItems base (stripArtworkInputs p) l = buildItems base p l := by
  intro l
  induction l with
  | nil => rfl
  | cons f t ih =>
    simp only [buildItems, strip_processInfo base p f, ih]

/-- The whole per-playlist output (file name, document, count) is
unchanged by removing every artwork input. -/
theorem strip_processPlaylist (base : String) (p : PlaylistDir) :
    processPlaylist base (stripArtworkInputs p) = processPlaylist base p := by
  unfold processPlaylist
  rw [show infoFiles (stripArtworkInputs p) = infoFiles p from by
      show sortStr ((p.files.filter notThumbName).filter isInfoName) =
        sortStr (p.files.filter isInfoName)
      rw [filter_info_notThumb]]
  rw [strip_buildItems]
  cases buildItems base p (infoFiles p) with
  | error e => rfl
  | ok items => rfl

/-- C5 (amended): the artwork URL is resolved by trying
`thumbnail.jpg`, `thumbnail.png`, `thumbnail.jpeg` in that order (built
like the enclosure URL), falling back to the metadata's own thumbnail
field if truthy, else none — but the resolved artwork URL is never used:
the rendered output is identical when every artwork input (thumbnail
files and metadata thumbnail fields) is removed.  No channel-level or
item-level element carries it. -/
theorem C5_artwork :
    (∀ (base : String) (p : PlaylistDir) (j : SidecarData),
       (p.has "thumbnail.jpg" = true →
         artworkFor base p j = some (base ++ "/" ++ pyQuote (p.name ++ "/thumbnail.jpg")))
     ∧ (p.has "thumbnail.jpg" = false → p.has "thumbnail.png" = true →
         artworkFor base p j = some (base ++ "/" ++ pyQuote (p.name ++ "/thumbnail.png")))
     ∧ (p.has "thumbnail.jpg" = false → p.has "thumbnail.png" = false →
         p.has "thumbnail.jpeg" = true →
         artworkFor base p j = some (base ++ "/" ++ pyQuote (p.name ++ "/thumbnail.jpeg")))
     ∧ (p.has "thumbnail.jpg" = false → p.has "thumbnail.png" = false →
         p.has "thumbnail.jpeg" = false →
         artworkFor base p j = (if j.thumbnail.getD "" != "" then j.thumbnail else none)))
  ∧ (∀ (base : String) (p : PlaylistDir),
       processPlaylist base (stripArtworkInputs p) = processPlaylist base p) := by
  constructor
  · intro base p j
    have e1 : ("thumbnail." ++ "jpg" : String) = "thumbnail.jpg" := rfl
    have e2 : ("thumbnail." ++ "png" : String) = "thumbnail.png" := rfl
    have e3 : ("thumbnail." ++ "jpeg" : String) = "thumbnail.jpeg" := rfl
    have i4 : ("/thumbnail." ++ "jpg" : String) = "/thumbnail.jpg" := rfl
    have i5 : ("/thumbnail." ++ "png" : String) = "/thumbnail.png" := rfl
    have i6 : ("/thumbnail." ++ "jpeg" : String) = "/thumbnail.jpeg" := rfl
    have e4 : (p.name ++ "/thumbnail." ++ "jpg" : String) = p.name ++ "/thumbnail.jpg" := by
      rw [String.append_assoc, i4]
    have e5 : (p.name ++ "/thumbnail." ++ "png" : String) = p.name ++ "/thumbnail.png" := by
      rw [String.append_assoc, i5]
    have e6 : (p.name ++ "/thumbnail." ++ "jpeg" : String) = p.name ++ "/thumbnail.jpeg" := by
      rw [String.append_assoc, i6]
    refine ⟨?_, ?_, ?_, ?_⟩
    · intro h1
      simp [artworkFor, firstThumb, e1, h1, e4]
    · intro h1 h2
      simp [artworkFor, firstThumb, e1, e2, h1, h2, e5]
    · intro h1 h2 h3
      simp [artworkFor, firstThumb, e1, e2, e3, h1, h2, h3, e6]
    · intro h1 h2 h3
      simp [artworkFor, firstThumb, e1, e2, e3, h1, h2, h3]
  · exact strip_processPlaylist

/-- C5 counterexample: for a playlist with a `thumbnail.jpg` and one
rendered item, the artwork URL is resolved but occurs nowhere in the
rendered document — it is not used at channel level. -/
theorem C5_counterexample :
    artworkFor "https://bkt" pEx ⟨some "A & B", some "d", some "20240101", some "http://t"⟩ =
      some "https://bkt/My%20Show/thumbnail.jpg"
  ∧ processPlaylist "https://bkt" pEx = .ok ("feed-my-show.xml", docC5, 1)
  ∧ containsS docC5 "https://bkt/My%20Show/thumbnail.jpg" = false := by
  refine ⟨rfl, rfl, ?_⟩
  decide

/-- Witness for C5 at a concrete playlist. -/
theorem C5_artwork_witness :
    artworkFor "https://bkt" pEx ⟨some "A & B", some "d", some "20240101", some "http://t"⟩ =
      some ("https://bkt" ++ "/" ++ pyQuote ("My Show" ++ "/thumbnail.jpg"))
  ∧ processPlaylist "https://bkt" (stripArtworkInputs pEx) =
      processPlaylist "https://bkt" pEx :=
  ⟨(C5_artwork.1 "https://bkt" pEx
      ⟨some "A & B", some "d", some "20240101", some "http://t"⟩).1 rfl,
   C5_artwork.2 "https://bkt" pEx⟩
